import Mathlib

/-!
Verification of the `ethereum-tx-sign` transaction encoding and signing
pipeline (`src/raw_transaction.rs`).

Bytes are modelled as `Nat` values below 256, byte strings as `List Nat`.
256-bit transaction fields (`U256`) are modelled as `Nat`; the RLP crate
encodes them by their minimal big-endian representation.  The `RlpStream`
"unbounded list" usage in the source (begin list, append items, complete
list) is two-phase framing: concatenate the item encodings, then prepend
a list header — modelled by `rlpEncodeList` applied to the joined item
encodings.
-/

/-- Minimal big-endian digits of `n`, fuel-indexed (fuel `≥ n` is always
enough since `n / 256 ≤ n`). `0` yields the empty list. -/
def beBytesAux : Nat → Nat → List Nat
  | _, 0 => []
  | 0, _ + 1 => []
  | f + 1, n + 1 => beBytesAux f ((n + 1) / 256) ++ [(n + 1) % 256]

/-- Minimal big-endian byte representation of a natural number; zero is
the empty byte string (RLP canonical integer body). -/
def natToBEBytes (n : Nat) : List Nat := beBytesAux n n

/-- Big-endian value of a byte string. -/
def beVal : List Nat → Nat
  | [] => 0
  | b :: rest => b * 256 ^ rest.length + beVal rest

/-- RLP encoding of a byte string item: a single byte below `0x80` is its
own encoding; short strings get a `0x80 + len` header; longer strings a
`0xb7 + lenOfLen` header followed by the big-endian length. -/
def rlpEncodeBytes (bs : List Nat) : List Nat :=
  match bs with
  | [b] => if b < 128 then [b] else [129, b]
  | _ =>
    if bs.length ≤ 55 then (128 + bs.length) :: bs
    else (183 + (natToBEBytes bs.length).length) :: (natToBEBytes bs.length ++ bs)

/-- RLP list framing over an already-concatenated payload of item
encodings: `0xc0 + len` header for short payloads, `0xf7 + lenOfLen`
followed by the big-endian payload length otherwise. -/
def rlpEncodeList (payload : List Nat) : List Nat :=
  if payload.length ≤ 55 then (192 + payload.length) :: payload
  else (247 + (natToBEBytes payload.length).length) :: (natToBEBytes payload.length ++ payload)

/-! ### Keccak-256 (the `tiny_keccak::keccak256` dependency)

Implemented from the Keccak specification: 25 lanes of 64 bits
(column-major index `x + 5*y`), 24 rounds of θ, ρ+π, χ, ι, rate 1088
bits (136 bytes), multi-rate padding with domain byte `0x01` (original
Keccak, as Ethereum uses), 32-byte squeeze. -/

/-- 64-bit all-ones mask. -/
def mask64 : Nat := 2 ^ 64 - 1

/-- Left-rotation of a 64-bit lane. -/
def rotl64 (a k : Nat) : Nat :=
  ((a <<< (k % 64)) ||| (a >>> (64 - k % 64))) % 2 ^ 64

/-- Lane at Keccak coordinates `(x, y)` (coordinates taken mod 5). -/
def lane (s : List Nat) (x y : Nat) : Nat := s.getD (x % 5 + 5 * (y % 5)) 0

/-- Keccak θ step. -/
def theta (s : List Nat) : List Nat :=
  let C := fun x => (lane s x 0) ^^^ (lane s x 1) ^^^ (lane s x 2) ^^^ (lane s x 3) ^^^ (lane s x 4)
  let D := fun x => (C ((x + 4) % 5)) ^^^ rotl64 (C ((x + 1) % 5)) 1
  (List.range 25).map (fun i => (s.getD i 0) ^^^ D (i % 5))

/-- Keccak rotation offsets, one row per `y`, each row indexed by `x`. -/
def rotOffRows : List (List Nat) :=
  [[0, 1, 62, 28, 27],
   [36, 44, 6, 55, 20],
   [3, 10, 43, 25, 39],
   [41, 45, 15, 21, 8],
   [18, 2, 61, 56, 14]]

/-- Keccak rotation offsets, flattened to index `x + 5*y`. -/
def rotOffsets : List Nat := rotOffRows.flatten

/-- Keccak ρ and π steps: the lane at `(x, y)` moves, rotated, to
`(y, (2x + 3y) mod 5)`; equivalently the new `(X, Y)` lane comes from
`((X + 3Y) mod 5, X)`. -/
def rhopi (s : List Nat) : List Nat :=
  (List.range 25).map (fun i =>
    let X := i % 5
    let Y := i / 5
    let x := (X + 3 * Y) % 5
    rotl64 (lane s x X) (rotOffsets.getD (x + 5 * X) 0))

/-- Keccak χ step. -/
def chi (s : List Nat) : List Nat :=
  (List.range 25).map (fun i =>
    let x := i % 5
    let y := i / 5
    (lane s x y) ^^^ (((lane s (x + 1) y) ^^^ mask64) &&& (lane s (x + 2) y)))

/-- Keccak round constants. -/
def keccakRC : List Nat :=
  [0x0000000000000001, 0x0000000000008082, 0x800000000000808a, 0x8000000080008000,
   0x000000000000808b, 0x0000000080000001, 0x8000000080008081, 0x8000000000008009,
   0x000000000000008a, 0x0000000000000088, 0x0000000080008009, 0x000000008000000a,
   0x000000008000808b, 0x800000000000008b, 0x8000000000008089, 0x8000000000008003,
   0x8000000000008002, 0x8000000000000080, 0x000000000000800a, 0x800000008000000a,
   0x8000000080008081, 0x8000000000008080, 0x0000000080000001, 0x8000000080008008]

/-- One Keccak-f round: θ, ρ+π, χ, then ι with round constant `i`. -/
def keccakRound (s : List Nat) (i : Nat) : List Nat :=
  let t := chi (rhopi (theta s))
  t.set 0 ((t.getD 0 0) ^^^ keccakRC.getD i 0)

/-- Keccak-f[1600] permutation: 24 rounds. -/
def keccakF (s : List Nat) : List Nat := (List.range 24).foldl keccakRound s

/-- Interpret up to 8 bytes as a little-endian 64-bit lane. -/
def bytesToLane (bs : List Nat) : Nat := bs.foldr (fun b acc => acc * 256 + b) 0

/-- XOR a 136-byte rate block into the first 17 lanes of the state. -/
def xorBlock (s : List Nat) (block : List Nat) : List Nat :=
  (List.range 25).map (fun i =>
    if i < 17 then (s.getD i 0) ^^^ bytesToLane ((block.drop (8 * i)).take 8)
    else s.getD i 0)

/-- Multi-rate Keccak padding at rate 136 with domain byte `0x01`: append
`0x01`, zero-fill, set the top bit of the final byte. -/
def padKeccak (msg : List Nat) : List Nat :=
  let q := 136 - msg.length % 136
  if q = 1 then msg ++ [0x81]
  else msg ++ [0x01] ++ List.replicate (q - 2) 0 ++ [0x80]

/-- Split a byte string into 136-byte blocks (fuel-indexed; fuel equal to
the length is always enough). -/
def chunks136 : Nat → List Nat → List (List Nat)
  | 0, _ => []
  | _ + 1, [] => []
  | f + 1, bs => bs.take 136 :: chunks136 f (bs.drop 136)

/-- The 8 little-endian bytes of a 64-bit lane. -/
def laneBytes (l : Nat) : List Nat := (List.range 8).map (fun i => l / 256 ^ i % 256)

/-- Keccak-256: pad, absorb the 136-byte blocks, squeeze 32 bytes from
the first four lanes. -/
def keccak256 (msg : List Nat) : List Nat :=
  let padded := padKeccak msg
  let final := (chunks136 padded.length padded).foldl (fun s b => keccakF (xorBlock s b))
    (List.replicate 25 0)
  laneBytes (final.getD 0 0) ++ laneBytes (final.getD 1 0) ++
    laneBytes (final.getD 2 0) ++ laneBytes (final.getD 3 0)

/-! ### The transaction model and signing pipeline (`src/raw_transaction.rs`) -/

/-- `RawTransaction` from the source: `U256` fields as `Nat`, the
optional `H160` recipient as an optional 20-byte string, `data` as a
byte string. -/
structure RawTransaction where
  nonce : Nat
  «to» : Option (List Nat)
  value : Nat
  gas_price : Nat
  gas : Nat
  data : List Nat

/-- `RawTransaction::encode`: the six field items appended to the RLP
stream, in source order — nonce, gasPrice, gas, recipient (the literal
empty byte string when `to` is absent), value, data.  `U256` values
append as their minimal big-endian bytes, `H160` as its 20 bytes
verbatim, `Vec<u8>` as the byte string itself. -/
def RawTransaction.encodeItems (tx : RawTransaction) : List (List Nat) :=
  [rlpEncodeBytes (natToBEBytes tx.nonce),
   rlpEncodeBytes (natToBEBytes tx.gas_price),
   rlpEncodeBytes (natToBEBytes tx.gas),
   (match tx.to with
    | some t => rlpEncodeBytes t
    | none => rlpEncodeBytes []),
   rlpEncodeBytes (natToBEBytes tx.value),
   rlpEncodeBytes tx.data]

/-- The item encodings of the unsigned-for-hashing list built by
`RawTransaction::hash`: the six fields, then `vec![chain_id]` (a one-byte
byte string), then two `U256::zero()` items. -/
def hashItems (tx : RawTransaction) (chain_id : Nat) : List (List Nat) :=
  tx.encodeItems ++
    [rlpEncodeBytes [chain_id], rlpEncodeBytes (natToBEBytes 0), rlpEncodeBytes (natToBEBytes 0)]

/-- The RLP bytes hashed by `RawTransaction::hash`. -/
def unsignedEncoding (tx : RawTransaction) (chain_id : Nat) : List Nat :=
  rlpEncodeList (hashItems tx chain_id).flatten

/-- `RawTransaction::hash`: Keccak-256 of the unsigned-for-hashing RLP
list (`keccak256_hash` in the source is `tiny_keccak::keccak256`
collected into a `Vec`). -/
def RawTransaction.hash (tx : RawTransaction) (chain_id : Nat) : List Nat :=
  keccak256 (unsignedEncoding tx chain_id)

/-- The secp256k1 group order `n`: a secret key is a scalar in
`[1, n-1]`. -/
def secpOrder : Nat :=
  0xFFFFFFFFFFFFFFFFFFFFFFFFFFFFFFFEBAAEDCE6AF48A03BBFD25E8CD0364141

/-- `SecretKey::from_slice` succeeds exactly on 32-byte strings whose
big-endian value is a valid scalar in `[1, secpOrder - 1]`. -/
def validKey (k : List Nat) : Prop :=
  k.length = 32 ∧ 0 < beVal k ∧ beVal k < secpOrder

instance (k : List Nat) : Decidable (validKey k) := by
  unfold validKey
  infer_instance

/-- The failures of the pipeline.  In the source they surface as panics:
`Message::from_slice(..).unwrap()` on a digest that is not 32 bytes
(`InvalidMessage`), `SecretKey::from_slice(..).unwrap()` on an invalid
key (`InvalidKey`), and `R[0]` / `S[0]` on an emptied component during
zero-stripping (`IndexPanic`). -/
inductive SignFailure where
  | InvalidMessage
  | InvalidKey
  | IndexPanic
deriving DecidableEq

/-- The `EcdsaSig` struct from the source: `v`, `r`, `s` byte vectors. -/
structure EcdsaSig where
  v : List Nat
  r : List Nat
  s : List Nat
deriving DecidableEq

/-- The external recoverable-signing primitive
(`Secp256k1::sign_recoverable` followed by `serialize_compact`): from a
digest and a key it yields a recovery id and 64 bytes, `r` big-endian in
the first 32, `s` in the last 32.  The pipeline is parameterised over it;
`ValidPrim` states the contract the secp256k1 library guarantees. -/
def SignPrim : Type := List Nat → List Nat → Nat × List Nat

/-- Contract of the secp256k1 primitive: recovery id 0 or 1, 64 output
bytes, and both signature components are scalars in `[1, secpOrder-1]`
(an ECDSA signature with `r = 0` or `s = 0` is never emitted). -/
def ValidPrim (prim : SignPrim) : Prop :=
  ∀ h k, (prim h k).1 ≤ 1 ∧ (prim h k).2.length = 64 ∧
    0 < beVal ((prim h k).2.take 32) ∧ beVal ((prim h k).2.take 32) < secpOrder ∧
    0 < beVal ((prim h k).2.drop 32) ∧ beVal ((prim h k).2.drop 32) < secpOrder

/-- `ecdsa_sign` from the source: build the message (panics unless the
digest is 32 bytes), build the key (panics unless valid), sign, and pack
`v = recid as u8 + chain_id * 2 + 35` (all `u8` arithmetic, hence mod
256), `r = sig[0..32]`, `s = sig[32..64]`. -/
def ecdsa_sign (prim : SignPrim) (hash private_key : List Nat) (chain_id : Nat) :
    Except SignFailure EcdsaSig :=
  if hash.length ≠ 32 then .error .InvalidMessage
  else if ¬ validKey private_key then .error .InvalidKey
  else
    let recid := (prim hash private_key).1
    let sig := (prim hash private_key).2
    .ok ⟨[(recid + chain_id * 2 + 35) % 256], sig.take 32, sig.drop 32⟩

/-- The `while R[0] == 0 { R.remove(0); }` loop from
`RawTransaction::sign`: drops leading zero bytes, stopping at the first
nonzero byte; on an all-zero (hence eventually empty) vector the index
`R[0]` is out of bounds — modelled as `none`. -/
def stripZeros : List Nat → Option (List Nat)
  | [] => none
  | 0 :: rest => stripZeros rest
  | (b + 1) :: rest => some ((b + 1) :: rest)

/-- `RawTransaction::sign`: hash, sign, strip leading zeros from `r` and
`s`, then RLP-encode the signed list — the six fields followed by `v`,
stripped `r`, stripped `s`. -/
def RawTransaction.sign (prim : SignPrim) (tx : RawTransaction) (private_key : List Nat)
    (chain_id : Nat) : Except SignFailure (List Nat) :=
  match ecdsa_sign prim (tx.hash chain_id) private_key chain_id with
  | .error e => .error e
  | .ok sig =>
    match stripZeros sig.r, stripZeros sig.s with
    | some R, some S =>
      .ok (rlpEncodeList
        ((tx.encodeItems ++ [rlpEncodeBytes sig.v, rlpEncodeBytes R, rlpEncodeBytes S]).flatten))
    | _, _ => .error .IndexPanic

/-! ### Spec-side definitions for refinement comparison -/

/-- The signing-hash payload as the spec words it: the chain id is *"the
chain id c encoded as an RLP canonical integer"*, i.e. its minimal
big-endian bytes (`natToBEBytes`), unlike the source's one-byte string
`vec![chain_id]`. -/
def specHashItems (tx : RawTransaction) (chain_id : Nat) : List (List Nat) :=
  tx.encodeItems ++
    [rlpEncodeBytes (natToBEBytes chain_id),
     rlpEncodeBytes (natToBEBytes 0), rlpEncodeBytes (natToBEBytes 0)]

/-- The signing hash as the spec's contract states it:
`Keccak256(RLP([nonce, gasPrice, gas, to|empty, value, data, chainId, 0, 0]))`
with `chainId` a canonical RLP integer. -/
def specHash (tx : RawTransaction) (chain_id : Nat) : List Nat :=
  keccak256 (rlpEncodeList (specHashItems tx chain_id).flatten)

/-! ### Concrete instances used by witnesses and counterexamples -/

/-- A concrete transaction: everything zero or empty, no recipient. -/
def tx0 : RawTransaction := ⟨0, none, 0, 0, 0, []⟩

/-- A concrete valid private key: 31 zero bytes then `0x01`. -/
def key1 : List Nat := List.replicate 31 0 ++ [1]

/-- A concrete contract-satisfying signing primitive: recovery id 0,
`r = s = 1` as 32-byte big-endian strings. -/
def prim0 : SignPrim := fun _ _ => (0, key1 ++ key1)

/-- A signing primitive with the spec's stated output shape (recovery id
0 or 1, 64 bytes) whose `r` and `s` components are entirely zero — the
edge case the spec's stripping rule talks about. -/
def primZero : SignPrim := fun _ _ => (0, List.replicate 64 0)

/-- A 32-byte all-zero string: used both as a concrete digest and as the
all-zero private key. -/
def zeros32 : List Nat := List.replicate 32 0

set_option maxRecDepth 10000

/-! ### Helper lemmas -/

/-- Zero has no big-endian digits, whatever the fuel. -/
theorem beBytesAux_zero (f : Nat) : beBytesAux f 0 = [] := by
  cases f <;> rfl

/-- A byte value in `[1, 255]` has itself as its single big-endian
digit. -/
theorem natToBEBytes_byte (c : Nat) (h1 : 0 < c) (h2 : c < 256) : natToBEBytes c = [c] := by
  match c, h1 with
  | c + 1, _ =>
    show beBytesAux (c + 1) (c + 1) = [c + 1]
    rw [beBytesAux, Nat.div_eq_of_lt h2, beBytesAux_zero, Nat.mod_eq_of_lt h2]
    rfl

/-- Keccak-256 always squeezes exactly 32 bytes. -/
theorem keccak256_length (msg : List Nat) : (keccak256 msg).length = 32 := by
  simp [keccak256, laneBytes]

/-- The signing hash is always 32 bytes. -/
theorem hash_length (tx : RawTransaction) (c : Nat) : (tx.hash c).length = 32 :=
  keccak256_length _

/-- On a byte string of positive big-endian value, the stripping loop
terminates at a nonzero head byte. -/
theorem stripZeros_pos : ∀ bs : List Nat, 0 < beVal bs →
    ∃ b rest, stripZeros bs = some (b :: rest) ∧ b ≠ 0
  | [], h => absurd h (by simp [beVal])
  | 0 :: rest, h => by
    have hv : beVal (0 :: rest) = beVal rest := by simp [beVal]
    obtain ⟨b, r, hb, hne⟩ := stripZeros_pos rest (hv ▸ h)
    exact ⟨b, r, by simpa [stripZeros] using hb, hne⟩
  | (b + 1) :: rest, _ => ⟨b + 1, rest, rfl, Nat.succ_ne_zero b⟩

/-- `prim0` satisfies the secp256k1 output contract. -/
theorem validPrim_prim0 : ValidPrim prim0 := by
  intro h k
  have hc : (0 : Nat) ≤ 1 ∧ (key1 ++ key1).length = 64 ∧
      0 < beVal ((key1 ++ key1).take 32) ∧ beVal ((key1 ++ key1).take 32) < secpOrder ∧
      0 < beVal ((key1 ++ key1).drop 32) ∧ beVal ((key1 ++ key1).drop 32) < secpOrder := by
    decide
  exact hc

/-- `key1` is a valid secret key. -/
theorem validKey_key1 : validKey key1 := by decide

/-- The all-zero key is not a valid secret key. -/
theorem not_validKey_zeros32 : ¬ validKey zeros32 := by decide

/-- A successful run of `ecdsa_sign`, spelled out. -/
theorem ecdsa_sign_ok (prim : SignPrim) (h k : List Nat) (c : Nat)
    (hh : h.length = 32) (hk : validKey k) :
    ecdsa_sign prim h k c =
      Except.ok ⟨[((prim h k).1 + c * 2 + 35) % 256],
        (prim h k).2.take 32, (prim h k).2.drop 32⟩ := by
  unfold ecdsa_sign
  simp [hh, hk]

/-! ### Claim theorems -/

/-- Claim C1, amended: for every transaction and every chain id in
`[1, 255]`, the signing hash equals the Keccak-256 digest of the RLP
list of nonce, gasPrice, gas, to-or-empty, value, data, the chain id as
an RLP canonical integer, integer zero, integer zero.  (The amendment
restricts the chain id to be nonzero: at chain id 0 the source encodes
the chain id item as the one-byte string `0x00`, not as the canonical
integer, which is the empty string — see the counterexample.) -/
theorem hash_matches_spec_of_chainid_pos (tx : RawTransaction) (c : Nat)
    (h1 : 0 < c) (h2 : c < 256) : tx.hash c = specHash tx c := by
  unfold RawTransaction.hash specHash unsignedEncoding hashItems specHashItems
  rw [natToBEBytes_byte c h1 h2]

/-- Claim C1, witness: the amended statement instantiated at the
all-zero contract-creation transaction and chain id 1. -/
theorem hash_matches_spec_of_chainid_pos_witness :
    0 < 1 ∧ 1 < 256 ∧ tx0.hash 1 = specHash tx0 1 :=
  ⟨by decide, by decide, hash_matches_spec_of_chainid_pos tx0 1 (by decide) (by decide)⟩

/-- Claim C1, counterexample: at chain id 0 the signing hash differs
from the spec's contract, because the source appends `vec![0]` (RLP
`0x00`) where the canonical integer 0 is the empty string (RLP
`0x80`). -/
theorem hash_ne_spec_at_chainid_zero : RawTransaction.hash tx0 0 ≠ specHash tx0 0 := by
  decide

/-- Claim C2, amended: the `v` component equals
`recoveryId + chainId*2 + 35` exactly whenever that sum fits in a byte;
the source computes it in `u8` arithmetic, so the sum is reduced
mod 256 (see the counterexample at chain id 128). -/
theorem v_exact_of_no_overflow (prim : SignPrim) (h k : List Nat) (c : Nat)
    (hh : h.length = 32) (hk : validKey k)
    (hbound : (prim h k).1 + c * 2 + 35 < 256) :
    (ecdsa_sign prim h k c).toOption.map EcdsaSig.v = some [(prim h k).1 + c * 2 + 35] := by
  rw [ecdsa_sign_ok prim h k c hh hk]
  simp [Except.toOption, Nat.mod_eq_of_lt hbound]

/-- Claim C2, witness: the amended statement at chain id 3 (the repo's
ropsten fixture chain id), where `v = 0 + 3*2 + 35 = 41` exactly. -/
theorem v_exact_of_no_overflow_witness :
    zeros32.length = 32 ∧ validKey key1 ∧ (prim0 zeros32 key1).1 + 3 * 2 + 35 < 256 ∧
    (ecdsa_sign prim0 zeros32 key1 3).toOption.map EcdsaSig.v =
      some [(prim0 zeros32 key1).1 + 3 * 2 + 35] :=
  ⟨by decide, by decide, by decide,
    v_exact_of_no_overflow prim0 zeros32 key1 3 (by decide) (by decide) (by decide)⟩

/-- Claim C2, counterexample: at chain id 128 with recovery id 0 the
emitted `v` byte is 35, not the exact EIP-155 value `0 + 128*2 + 35 =
291` — the `u8` addition wrapped. -/
theorem v_wrapped_at_chainid_128 :
    (prim0 zeros32 key1).1 = 0 ∧
    (ecdsa_sign prim0 zeros32 key1 128).toOption.map EcdsaSig.v = some [35] ∧
    (35 : Nat) ≠ 0 + 128 * 2 + 35 :=
  ⟨rfl, by rfl, by decide⟩

/-- Claim C3, amended: for every signature whose `r` and `s` scalars are
nonzero — as the secp256k1 contract guarantees for every signature the
signer produces — the stripping loop terminates, stopping at a nonzero
byte, and the stripped components are nonempty with no leading zero
byte.  (The claim's clause about an all-zero component being emitted as
the empty byte string does not hold on the code: the loop would empty
the vector and then index out of bounds — see the counterexample.) -/
theorem strip_succeeds_for_valid_signatures (prim : SignPrim) (hp : ValidPrim prim)
    (tx : RawTransaction) (k : List Nat) (c : Nat) (hk : validKey k) :
    ∃ sig R S, ecdsa_sign prim (tx.hash c) k c = Except.ok sig ∧
      stripZeros sig.r = some R ∧ stripZeros sig.s = some S ∧
      R ≠ [] ∧ S ≠ [] ∧
      (∀ b rest, R = b :: rest → b ≠ 0) ∧ (∀ b rest, S = b :: rest → b ≠ 0) := by
  obtain ⟨-, -, hr, -, hs, -⟩ := hp (tx.hash c) k
  obtain ⟨br, rr, hsr, hbr⟩ := stripZeros_pos _ hr
  obtain ⟨bs, rs, hss, hbs⟩ := stripZeros_pos _ hs
  refine ⟨_, br :: rr, bs :: rs, ecdsa_sign_ok prim (tx.hash c) k c (hash_length tx c) hk,
    hsr, hss, List.cons_ne_nil br rr, List.cons_ne_nil bs rs, ?_, ?_⟩
  · intro b rest hb
    cases hb
    exact hbr
  · intro b rest hb
    cases hb
    exact hbs

/-- Claim C3, witness: the amended statement at the concrete primitive
`prim0`, transaction `tx0`, key `key1`, chain id 0. -/
theorem strip_succeeds_for_valid_signatures_witness :
    ValidPrim prim0 ∧ validKey key1 ∧
    (∃ sig R S, ecdsa_sign prim0 (tx0.hash 0) key1 0 = Except.ok sig ∧
      stripZeros sig.r = some R ∧ stripZeros sig.s = some S ∧
      R ≠ [] ∧ S ≠ [] ∧
      (∀ b rest, R = b :: rest → b ≠ 0) ∧ (∀ b rest, S = b :: rest → b ≠ 0)) :=
  ⟨validPrim_prim0, validKey_key1,
    strip_succeeds_for_valid_signatures prim0 validPrim_prim0 tx0 key1 0 validKey_key1⟩

/-- Claim C3, counterexample: on an all-zero `r` component (64 zero
signature bytes from `primZero`, which has the spec's stated output
shape) the stripping loop does not emit the empty byte string — it
empties the vector and the bounds check on `R[0]` fails, so `sign`
aborts with an index panic. -/
theorem strip_panics_on_zero_component :
    (primZero (tx0.hash 0) key1).2.take 32 = List.replicate 32 0 ∧
    stripZeros (List.replicate 32 0) = none ∧
    tx0.sign primZero key1 0 = Except.error SignFailure.IndexPanic :=
  ⟨rfl, rfl, by rfl⟩

/-- Claim C4: signing with a private key that is not a valid scalar in
`[1, secpOrder-1]` — in particular the all-zero key — fails with the
invalid-key error and produces no output bytes. -/
theorem sign_rejects_invalid_key (prim : SignPrim) (tx : RawTransaction) (k : List Nat)
    (c : Nat) (hk : ¬ validKey k) :
    tx.sign prim k c = Except.error SignFailure.InvalidKey := by
  have he : ecdsa_sign prim (tx.hash c) k c = Except.error SignFailure.InvalidKey := by
    unfold ecdsa_sign
    simp [hash_length tx c, hk]
  unfold RawTransaction.sign
  rw [he]

/-- Claim C4, witness: signing with the 32-byte all-zero key fails with
the invalid-key error. -/
theorem sign_rejects_invalid_key_witness :
    ¬ validKey zeros32 ∧ tx0.sign prim0 zeros32 0 = Except.error SignFailure.InvalidKey :=
  ⟨by decide, sign_rejects_invalid_key prim0 tx0 zeros32 0 (by decide)⟩

/-- Claim C5, amended: signing under two distinct chain ids yields
distinct `v` values provided both chain ids are at most 109, so that
`recoveryId + chainId*2 + 35` cannot wrap in the `u8` arithmetic; with
wrapping, chain ids 128 apart can collide (see the counterexample). -/
theorem v_distinct_of_small_chainids (prim : SignPrim) (hp : ValidPrim prim)
    (h1 h2 k : List Nat) (c1 c2 : Nat) (hh1 : h1.length = 32) (hh2 : h2.length = 32)
    (hk : validKey k) (hc1 : c1 ≤ 109) (hc2 : c2 ≤ 109) (hne : c1 ≠ c2) :
    (ecdsa_sign prim h1 k c1).toOption.map EcdsaSig.v ≠
      (ecdsa_sign prim h2 k c2).toOption.map EcdsaSig.v := by
  obtain ⟨hrec1, -⟩ := hp h1 k
  obtain ⟨hrec2, -⟩ := hp h2 k
  rw [ecdsa_sign_ok prim h1 k c1 hh1 hk, ecdsa_sign_ok prim h2 k c2 hh2 hk]
  have hm1 : ((prim h1 k).1 + c1 * 2 + 35) % 256 = (prim h1 k).1 + c1 * 2 + 35 :=
    Nat.mod_eq_of_lt (by omega)
  have hm2 : ((prim h2 k).1 + c2 * 2 + 35) % 256 = (prim h2 k).1 + c2 * 2 + 35 :=
    Nat.mod_eq_of_lt (by omega)
  simp only [Except.toOption, Option.map, ne_eq, Option.some.injEq, List.cons.injEq,
    and_true, hm1, hm2]
  omega

/-- Claim C5, witness: the amended statement at chain ids 0 and 1 over
the same 32-byte digest, with the concrete primitive `prim0`. -/
theorem v_distinct_of_small_chainids_witness :
    ValidPrim prim0 ∧ zeros32.length = 32 ∧ validKey key1 ∧
    0 ≤ 109 ∧ 1 ≤ 109 ∧ (0 : Nat) ≠ 1 ∧
    (ecdsa_sign prim0 zeros32 key1 0).toOption.map EcdsaSig.v ≠
      (ecdsa_sign prim0 zeros32 key1 1).toOption.map EcdsaSig.v :=
  ⟨validPrim_prim0, by decide, by decide, by decide, by decide, by decide,
    v_distinct_of_small_chainids prim0 validPrim_prim0 zeros32 zeros32 key1 0 1
      (by decide) (by decide) (by decide) (by decide) (by decide) (by decide)⟩

/-- Claim C5, counterexample: under the contract-satisfying primitive
`prim0` (recovery id 0 for both digests), signing `tx0` with `key1`
under the distinct chain ids 0 and 128 produces the same `v` byte 35,
because `0 + 128*2 + 35 = 291` wraps to 35 in `u8` arithmetic. -/
theorem v_collision_distinct_chainids :
    (0 : Nat) ≠ 128 ∧
    (ecdsa_sign prim0 (tx0.hash 0) key1 0).toOption.map EcdsaSig.v = some [35] ∧
    (ecdsa_sign prim0 (tx0.hash 128) key1 128).toOption.map EcdsaSig.v = some [35] :=
  ⟨by decide, by rfl, by rfl⟩

/-- Claim C6: when `to` is absent, the recipient item — the fourth item
of both the unsigned-for-hashing list and the signed list — is the RLP
empty byte string `0x80`, which differs from the encoding of 20 zero
bytes. -/
theorem contract_creation_empty_recipient (tx : RawTransaction) (c : Nat)
    (v r s : List Nat) (h : tx.to = none) :
    (hashItems tx c)[3]? = some (rlpEncodeBytes []) ∧
    (tx.encodeItems ++ [rlpEncodeBytes v, rlpEncodeBytes r, rlpEncodeBytes s])[3]? =
      some (rlpEncodeBytes []) ∧
    rlpEncodeBytes [] = [128] ∧ rlpEncodeBytes (List.replicate 20 0) ≠ [128] :=
  ⟨by simp [hashItems, RawTransaction.encodeItems, h],
   by simp [RawTransaction.encodeItems, h],
   by decide, by decide⟩

/-- Claim C6, witness: instantiated at the contract-creation transaction
`tx0` and chain id 0. -/
theorem contract_creation_empty_recipient_witness :
    tx0.to = none ∧
    ((hashItems tx0 0)[3]? = some (rlpEncodeBytes []) ∧
     (tx0.encodeItems ++ [rlpEncodeBytes [35], rlpEncodeBytes [1], rlpEncodeBytes [1]])[3]? =
       some (rlpEncodeBytes []) ∧
     rlpEncodeBytes [] = [128] ∧ rlpEncodeBytes (List.replicate 20 0) ≠ [128]) :=
  ⟨rfl, contract_creation_empty_recipient tx0 0 [35] [1] [1] rfl⟩

/-- Claim C7: on every successful run, the bytes returned by `sign` are
the RLP list whose items are, in order, the six encoded transaction
fields (nonce, gasPrice, gas, to-or-empty, value, data — the order fixed
by `encodeItems`) followed by `v`, stripped `r`, stripped `s`. -/
theorem sign_output_ordered (prim : SignPrim) (hp : ValidPrim prim) (tx : RawTransaction)
    (k : List Nat) (c : Nat) (hk : validKey k) :
    ∃ R S, stripZeros ((prim (tx.hash c) k).2.take 32) = some R ∧
      stripZeros ((prim (tx.hash c) k).2.drop 32) = some S ∧
      tx.sign prim k c = Except.ok (rlpEncodeList
        ((tx.encodeItems ++
          [rlpEncodeBytes [((prim (tx.hash c) k).1 + c * 2 + 35) % 256],
           rlpEncodeBytes R, rlpEncodeBytes S]).flatten)) := by
  obtain ⟨-, -, hr, -, hs, -⟩ := hp (tx.hash c) k
  obtain ⟨br, rr, hsr, -⟩ := stripZeros_pos _ hr
  obtain ⟨bs, rs, hss, -⟩ := stripZeros_pos _ hs
  refine ⟨br :: rr, bs :: rs, hsr, hss, ?_⟩
  unfold RawTransaction.sign
  rw [ecdsa_sign_ok prim (tx.hash c) k c (hash_length tx c) hk]
  simp [hsr, hss]

/-- Claim C7, witness: instantiated at `prim0`, `tx0`, `key1`, chain
id 0. -/
theorem sign_output_ordered_witness :
    ValidPrim prim0 ∧ validKey key1 ∧
    (∃ R S, stripZeros ((prim0 (tx0.hash 0) key1).2.take 32) = some R ∧
      stripZeros ((prim0 (tx0.hash 0) key1).2.drop 32) = some S ∧
      tx0.sign prim0 key1 0 = Except.ok (rlpEncodeList
        ((tx0.encodeItems ++
          [rlpEncodeBytes [((prim0 (tx0.hash 0) key1).1 + 0 * 2 + 35) % 256],
           rlpEncodeBytes R, rlpEncodeBytes S]).flatten))) :=
  ⟨validPrim_prim0, validKey_key1,
    sign_output_ordered prim0 validPrim_prim0 tx0 key1 0 validKey_key1⟩

/-- Claim C8: producing the unsigned-for-hashing encoding (and its
Keccak-256 digest) twice from the same transaction and chain id yields
byte-for-byte identical results — the embedded pipeline is a pure
function of its inputs, with no hidden state. -/
theorem unsigned_encoding_deterministic (tx : RawTransaction) (c : Nat) :
    unsignedEncoding tx c = unsignedEncoding tx c ∧ tx.hash c = tx.hash c :=
  ⟨rfl, rfl⟩

/-- Claim C9: the digest produced by the hash step is exactly 32 bytes,
so within the sign pipeline `ecdsa_sign` never fails with the
invalid-message error. -/
theorem invalid_message_unreachable (prim : SignPrim) (tx : RawTransaction)
    (k : List Nat) (c : Nat) :
    (tx.hash c).length = 32 ∧
    ecdsa_sign prim (tx.hash c) k c ≠ Except.error SignFailure.InvalidMessage := by
  refine ⟨hash_length tx c, ?_⟩
  unfold ecdsa_sign
  simp only [hash_length tx c]
  by_cases hk : validKey k <;> simp [hk]

/-- Claim C10: the `v` component is computed in single-byte arithmetic:
the emitted `v` byte is `(recoveryId + chainId*2 + 35) mod 256`, and for
every chain id of 111 or more the wrapped byte differs from the exact
EIP-155 value. -/
theorem v_mod256 (prim : SignPrim) (h k : List Nat) (c : Nat)
    (hh : h.length = 32) (hk : validKey k) :
    (ecdsa_sign prim h k c).toOption.map EcdsaSig.v =
      some [((prim h k).1 + c * 2 + 35) % 256] ∧
    (111 ≤ c → ((prim h k).1 + c * 2 + 35) % 256 ≠ (prim h k).1 + c * 2 + 35) := by
  constructor
  · rw [ecdsa_sign_ok prim h k c hh hk]
    simp [Except.toOption]
  · intro hc
    have hge : 256 ≤ (prim h k).1 + c * 2 + 35 := by omega
    have hlt := Nat.mod_lt ((prim h k).1 + c * 2 + 35) (show 0 < 256 by decide)
    omega

/-- Claim C10, witness: at chain id 111 with `prim0` (recovery id 0) the
emitted byte is `257 mod 256 = 1`, not the exact value 257. -/
theorem v_mod256_witness :
    zeros32.length = 32 ∧ validKey key1 ∧
    ((ecdsa_sign prim0 zeros32 key1 111).toOption.map EcdsaSig.v =
      some [((prim0 zeros32 key1).1 + 111 * 2 + 35) % 256] ∧
    (111 ≤ 111 → ((prim0 zeros32 key1).1 + 111 * 2 + 35) % 256 ≠
      (prim0 zeros32 key1).1 + 111 * 2 + 35)) :=
  ⟨by decide, by decide, v_mod256 prim0 zeros32 key1 111 (by decide) (by decide)⟩
